import Mathlib

/-!
Verification of the in-memory TODO CRUD store of `src/main.py`.

The store is a Python dict `todos_db : dict[int, dict]` together with a
global counter `next_id`.  A Python dict preserves insertion order and has
unique keys; we model it as an association list `List (Nat × TodoItem)`
whose primitive operations (`dictGet`, `dictSet`, `dictErase`) follow
Python dict semantics: lookup finds the first matching key, assignment
replaces the value in place when the key is present and appends otherwise,
and deletion removes the entry for the key.

Timestamps (`datetime.now()`) are abstracted as a `Nat` supplied by the
clock at each `create`; nothing in the program inspects them.  The HTTP
layer is out of scope: each handler becomes a function from the store
state, returning its result (an `Except String` models `HTTPException`
with its `detail` message) together with the successor state.
-/

/-- A stored TODO record: the `todo_data` dict built in `create_todo`. -/
structure TodoItem where
  id : Nat
  title : String
  description : Option String
  completed : Bool
  created_at : Nat
deriving DecidableEq, Repr

/-- The `TodoUpdate` request model: every field optional, defaulting to
`None` (absent and explicit null are indistinguishable). -/
structure TodoUpdate where
  title : Option String
  description : Option String
  completed : Option Bool
deriving DecidableEq, Repr

/-- The mapping held by `todos_db`, in insertion order. -/
abbrev TodoDb := List (Nat × TodoItem)

/-- The global mutable state: `todos_db` and `next_id`. -/
structure StoreState where
  todos_db : TodoDb
  next_id : Nat
deriving DecidableEq, Repr

/-- The fresh store: `todos_db = {}` and `next_id = 1`. -/
def initialState : StoreState := ⟨[], 1⟩

/-- Python `todos_db[k]` / `k in todos_db`: first entry whose key is `k`. -/
def dictGet (db : TodoDb) (k : Nat) : Option TodoItem :=
  match db with
  | [] => none
  | (k', v) :: rest => if k' = k then some v else dictGet rest k

/-- Python `k in todos_db`. -/
def dictContains (db : TodoDb) (k : Nat) : Bool :=
  (dictGet db k).isSome

/-- Python `todos_db[k] = v`: replace in place when `k` is present
(keeping its position in the insertion order), append otherwise. -/
def dictSet (db : TodoDb) (k : Nat) (v : TodoItem) : List (Nat × TodoItem) :=
  if dictContains db k then
    db.map (fun p => if p.1 = k then (k, v) else p)
  else
    db ++ [(k, v)]

/-- Python `del todos_db[k]`: drop the entry for `k`. -/
def dictErase (db : TodoDb) (k : Nat) : TodoDb :=
  db.filter (fun p => p.1 ≠ k)

/-- Python slice index resolution for `l[a:b]` on a list of length `n`. -/
def pySliceIdx (n : Nat) (i : Int) : Nat :=
  if i < 0 then (max 0 ((n : Int) + i)).toNat else min i.toNat n

/-- Python `l[a:b]`: the elements with index in `[a', b')` after the
usual clamping of negative and out-of-range bounds. -/
def pySlice (l : List TodoItem) (a b : Int) : List TodoItem :=
  (l.take (pySliceIdx l.length b)).drop (pySliceIdx l.length a)

/-- `get_next_id`: return the counter, then increment it. -/
def get_next_id (s : StoreState) : Nat × StoreState :=
  (s.next_id, { s with next_id := s.next_id + 1 })

/-- `create_todo`: allocate the next id, build the record with the
request fields and the current time, insert it, return it. -/
def create_todo (title : String) (description : Option String)
    (completed : Bool) (now : Nat) (s : StoreState) : TodoItem × StoreState :=
  let idAndState := get_next_id s
  let todo_data : TodoItem :=
    { id := idAndState.1
      title := title
      description := description
      completed := completed
      created_at := now }
  (todo_data, { idAndState.2 with
                  todos_db := dictSet idAndState.2.todos_db idAndState.1 todo_data })

/-- `read_todos`: `list(todos_db.values())`, filtered by `completed`
when that query parameter is given, then sliced `[skip : skip+limit]`. -/
def read_todos (skip limit : Int) (completed : Option Bool)
    (s : StoreState) : List TodoItem × StoreState :=
  let todos_list := s.todos_db.map Prod.snd
  let todos_list :=
    match completed with
    | some c => todos_list.filter (fun todo => todo.completed == c)
    | none => todos_list
  (pySlice todos_list skip (skip + limit), s)

/-- The 404 detail string `TODO with id {todo_id} not found`. -/
def notFoundMsg (todo_id : Nat) : String :=
  "TODO with id " ++ toString todo_id ++ " not found"

/-- `read_todo`: 404 when the id is absent, else the stored record. -/
def read_todo (todo_id : Nat) (s : StoreState) :
    Except String TodoItem × StoreState :=
  match dictGet s.todos_db todo_id with
  | none => (Except.error (notFoundMsg todo_id), s)
  | some t => (Except.ok t, s)

/-- The three `if ... is not None` assignments of `update_todo`, applied
to the stored record. -/
def applyUpdate (u : TodoUpdate) (t : TodoItem) : TodoItem :=
  let t1 := match u.title with
    | some v => { t with title := v }
    | none => t
  let t2 := match u.description with
    | some v => { t1 with description := some v }
    | none => t1
  match u.completed with
  | some v => { t2 with completed := v }
  | none => t2

/-- `update_todo`: 404 when the id is absent; otherwise overwrite each
provided field on the stored record (in place, so the store sees the
change) and return the record. -/
def update_todo (todo_id : Nat) (todo_update : TodoUpdate) (s : StoreState) :
    Except String TodoItem × StoreState :=
  match dictGet s.todos_db todo_id with
  | none => (Except.error (notFoundMsg todo_id), s)
  | some existing_todo =>
      let updated := applyUpdate todo_update existing_todo
      (Except.ok updated,
        { s with todos_db := dictSet s.todos_db todo_id updated })

/-- `delete_todo`: 404 when the id is absent, else remove the entry and
return no content. -/
def delete_todo (todo_id : Nat) (s : StoreState) :
    Except String Unit × StoreState :=
  if dictContains s.todos_db todo_id then
    (Except.ok (), { s with todos_db := dictErase s.todos_db todo_id })
  else
    (Except.error (notFoundMsg todo_id), s)

/-- The stats summary returned by `get_stats`; the percentage is exact
rational arithmetic in place of Python float division. -/
structure Stats where
  total_todos : Nat
  completed : Nat
  pending : Nat
  completion_percentage : Rat
deriving DecidableEq, Repr

/-- `get_stats`: counts over the current store, `pending = total -
completed`, and `completed / total * 100` guarded against `total = 0`. -/
def get_stats (s : StoreState) : Stats × StoreState :=
  let total := s.todos_db.length
  let completed := ((s.todos_db.map Prod.snd).countP (fun todo => todo.completed))
  let pending := total - completed
  ({ total_todos := total
     completed := completed
     pending := pending
     completion_percentage :=
       if total > 0 then (completed : Rat) / (total : Rat) * 100 else 0 }, s)

/-- `delete_all_todos`: `todos_db.clear()`; the counter is untouched. -/
def delete_all_todos (s : StoreState) : StoreState :=
  { s with todos_db := [] }

/-- One state-mutating request to the service. -/
inductive Op where
  | create (title : String) (description : Option String)
      (completed : Bool) (now : Nat)
  | update (todo_id : Nat) (todo_update : TodoUpdate)
  | delete (todo_id : Nat)
  | deleteAll
deriving DecidableEq, Repr

/-- The state after handling one request (read_todo/read_todos/get_stats
do not change the state, see their definitions). -/
def applyOp (op : Op) (s : StoreState) : StoreState :=
  match op with
  | Op.create title description completed now =>
      (create_todo title description completed now s).2
  | Op.update todo_id todo_update => (update_todo todo_id todo_update s).2
  | Op.delete todo_id => (delete_todo todo_id s).2
  | Op.deleteAll => delete_all_todos s

/-- The state after a whole sequence of requests. -/
def runOps (ops : List Op) (s : StoreState) : StoreState :=
  ops.foldl (fun s op => applyOp op s) s

/-- The ids handed out by the `create` requests of a trace, in order. -/
def assignedIds : List Op → StoreState → List Nat
  | [], _ => []
  | Op.create title description completed now :: rest, s =>
      (create_todo title description completed now s).1.id ::
        assignedIds rest (applyOp (Op.create title description completed now) s)
  | op :: rest, s => assignedIds rest (applyOp op s)

/-- The number of `create` requests in a trace. -/
def numCreates : List Op → Nat
  | [] => 0
  | Op.create _ _ _ _ :: rest => numCreates rest + 1
  | _ :: rest => numCreates rest

/-- The store's items in insertion order, restricted by the `completed`
query parameter when it is given: the pre-pagination list of
`read_todos`. -/
def filteredTodos (cf : Option Bool) (s : StoreState) : List TodoItem :=
  match cf with
  | some c => (s.todos_db.map Prod.snd).filter (fun todo => todo.completed == c)
  | none => s.todos_db.map Prod.snd

/-- Well-formedness of the mapping: keys are pairwise distinct and every
entry's value carries its key as `id`. -/
def storeWF (s : StoreState) : Prop :=
  (s.todos_db.map Prod.fst).Nodup ∧ ∀ p ∈ s.todos_db, p.2.id = p.1

/-- A sample stored record used to instantiate universally quantified
theorems at concrete inputs. -/
def wItem1 : TodoItem :=
  { id := 1, title := "buy milk", description := none,
    completed := false, created_at := 0 }

/-- A second sample record, completed and with a description. -/
def wItem2 : TodoItem :=
  { id := 2, title := "walk dog", description := some "daily",
    completed := true, created_at := 1 }

/-- A sample store holding `wItem1` and `wItem2`, next id 3. -/
def wState : StoreState := ⟨[(1, wItem1), (2, wItem2)], 3⟩

/-- A sample update request providing only `completed`. -/
def wUpd : TodoUpdate := ⟨none, none, some false⟩

/-- A sample update request providing a title and a completion flag but
no description. -/
def wUpd2 : TodoUpdate := ⟨some "buy oat milk", none, some true⟩

/-- A sample trace: two creations around a deletion. -/
def wOps : List Op :=
  [Op.create "buy milk" none false 0, Op.delete 1, Op.create "walk dog" (some "daily") true 1]

/-! ### Association-list facts mirroring Python dict semantics -/

theorem dictGet_eq_none_iff (db : TodoDb) (k : Nat) :
    dictGet db k = none ↔ k ∉ db.map Prod.fst := by
  induction db with
  | nil => simp [dictGet]
  | cons p rest ih =>
      obtain ⟨k', v⟩ := p
      by_cases h : k' = k
      · subst h
        simp [dictGet]
      · simp only [dictGet, if_neg h, List.map_cons, List.mem_cons, ih]
        constructor
        · rintro hn (rfl | hm)
          · exact h rfl
          · exact hn hm
        · intro hn hm
          exact hn (Or.inr hm)

theorem dictGet_mem (db : TodoDb) (k : Nat) (v : TodoItem)
    (h : dictGet db k = some v) : (k, v) ∈ db := by
  induction db with
  | nil => simp [dictGet] at h
  | cons p rest ih =>
      obtain ⟨k', v'⟩ := p
      by_cases hk : k' = k
      · subst hk
        simp [dictGet] at h
        subst h
        exact List.mem_cons_self _ _
      · simp only [dictGet, if_neg hk] at h
        exact List.mem_cons_of_mem _ (ih h)

theorem dictGet_replace_self (db : TodoDb) (k : Nat) (v : TodoItem)
    (h : dictGet db k ≠ none) :
    dictGet (db.map (fun p => if p.1 = k then (k, v) else p)) k = some v := by
  induction db with
  | nil => simp [dictGet] at h
  | cons p rest ih =>
      obtain ⟨k0, v0⟩ := p
      rw [List.map_cons]
      show dictGet ((if k0 = k then (k, v) else (k0, v0)) ::
        rest.map (fun p => if p.1 = k then (k, v) else p)) k = some v
      by_cases hk : k0 = k
      · rw [if_pos hk]
        simp [dictGet]
      · rw [if_neg hk]
        simp only [dictGet, if_neg hk] at h ⊢
        exact ih h

theorem dictGet_replace_ne (db : TodoDb) (k k' : Nat) (v : TodoItem)
    (h : k' ≠ k) :
    dictGet (db.map (fun p => if p.1 = k then (k, v) else p)) k' =
      dictGet db k' := by
  induction db with
  | nil => simp [dictGet]
  | cons p rest ih =>
      obtain ⟨k0, v0⟩ := p
      rw [List.map_cons]
      show dictGet ((if k0 = k then (k, v) else (k0, v0)) ::
        rest.map (fun p => if p.1 = k then (k, v) else p)) k' = _
      by_cases hk : k0 = k
      · subst hk
        rw [if_pos rfl]
        simp only [dictGet, if_neg (fun hh : k0 = k' => h hh.symm)]
        exact ih
      · rw [if_neg hk]
        simp only [dictGet]
        by_cases h0 : k0 = k'
        · simp [h0]
        · rw [if_neg h0, if_neg h0]
          exact ih

theorem dictGet_append_self (db : TodoDb) (k : Nat) (v : TodoItem)
    (h : dictGet db k = none) :
    dictGet (db ++ [(k, v)]) k = some v := by
  induction db with
  | nil => simp [dictGet]
  | cons p rest ih =>
      obtain ⟨k0, v0⟩ := p
      by_cases hk : k0 = k
      · subst hk
        simp [dictGet] at h
      · simp only [dictGet, if_neg hk] at h
        simp only [List.cons_append, dictGet, if_neg hk]
        exact ih h

theorem dictGet_append_ne (db : TodoDb) (k k' : Nat) (v : TodoItem)
    (h : k' ≠ k) :
    dictGet (db ++ [(k, v)]) k' = dictGet db k' := by
  induction db with
  | nil => simp [dictGet, if_neg (fun hh : k = k' => h hh.symm)]
  | cons p rest ih =>
      obtain ⟨k0, v0⟩ := p
      simp only [List.cons_append, dictGet]
      by_cases h0 : k0 = k'
      · simp [h0]
      · rw [if_neg h0, if_neg h0]
        exact ih

theorem dictGet_dictSet_self (db : TodoDb) (k : Nat) (v : TodoItem) :
    dictGet (dictSet db k v) k = some v := by
  unfold dictSet
  by_cases h : dictContains db k
  · rw [if_pos h]
    apply dictGet_replace_self
    unfold dictContains at h
    intro hn
    rw [hn] at h
    simp at h
  · rw [if_neg h]
    apply dictGet_append_self
    unfold dictContains at h
    cases hg : dictGet db k with
    | none => rfl
    | some t => rw [hg] at h; simp at h

theorem dictGet_dictSet_ne (db : TodoDb) (k k' : Nat) (v : TodoItem)
    (h : k' ≠ k) : dictGet (dictSet db k v) k' = dictGet db k' := by
  unfold dictSet
  by_cases hc : dictContains db k
  · rw [if_pos hc]
    exact dictGet_replace_ne db k k' v h
  · rw [if_neg hc]
    exact dictGet_append_ne db k k' v h

theorem dictGet_dictErase_self (db : TodoDb) (k : Nat) :
    dictGet (dictErase db k) k = none := by
  unfold dictErase
  induction db with
  | nil => simp [dictGet]
  | cons p rest ih =>
      obtain ⟨k0, v0⟩ := p
      by_cases hk : k0 = k
      · subst hk
        simpa using ih
      · simp only [List.filter_cons]
        rw [if_pos (by simpa using hk)]
        simpa [dictGet, if_neg hk] using ih

theorem dictGet_dictErase_ne (db : TodoDb) (k k' : Nat)
    (h : k' ≠ k) : dictGet (dictErase db k) k' = dictGet db k' := by
  unfold dictErase
  induction db with
  | nil => simp
  | cons p rest ih =>
      obtain ⟨k0, v0⟩ := p
      by_cases hk : k0 = k
      · subst hk
        simp only [List.filter_cons]
        rw [if_neg (by simp)]
        rw [dictGet, if_neg (fun hh : k0 = k' => h hh.symm)]
        exact ih
      · simp only [List.filter_cons]
        rw [if_pos (by simpa using hk)]
        simp only [dictGet]
        by_cases h0 : k0 = k'
        · simp [h0]
        · rw [if_neg h0, if_neg h0]
          exact ih

theorem dictGet_eq_none_of_not_contains (db : TodoDb) (k : Nat)
    (h : ¬ dictContains db k) : dictGet db k = none := by
  unfold dictContains at h
  cases hg : dictGet db k with
  | none => rfl
  | some t => rw [hg] at h; simp at h

theorem dictGet_ne_none_of_contains (db : TodoDb) (k : Nat)
    (h : dictContains db k) : dictGet db k ≠ none := by
  unfold dictContains at h
  intro hn
  rw [hn] at h
  simp at h

theorem keys_dictSet_of_contains (db : TodoDb) (k : Nat) (v : TodoItem)
    (h : dictContains db k) :
    (dictSet db k v).map Prod.fst = db.map Prod.fst := by
  unfold dictSet
  rw [if_pos h, List.map_map]
  apply List.map_congr_left
  intro p _
  by_cases hp : p.1 = k
  · simp [Function.comp, hp]
  · simp [Function.comp, hp]

theorem keys_dictSet_of_not_contains (db : TodoDb) (k : Nat) (v : TodoItem)
    (h : ¬ dictContains db k) :
    (dictSet db k v).map Prod.fst = db.map Prod.fst ++ [k] := by
  unfold dictSet
  rw [if_neg h, List.map_append]
  rfl

theorem mem_dictSet (db : TodoDb) (k : Nat) (v : TodoItem) (p : Nat × TodoItem)
    (h : p ∈ dictSet db k v) : p = (k, v) ∨ p ∈ db := by
  unfold dictSet at h
  by_cases hc : dictContains db k
  · rw [if_pos hc] at h
    obtain ⟨q, hq, hmap⟩ := List.mem_map.mp h
    by_cases hqk : q.1 = k
    · left
      rw [← hmap]
      simp [hqk]
    · right
      rw [← hmap]
      simp only [if_neg hqk]
      exact hq
  · rw [if_neg hc] at h
    rcases List.mem_append.mp h with h1 | h2
    · right
      exact h1
    · left
      simpa using h2

theorem dictSet_preserves_WF (db : TodoDb) (k : Nat) (v : TodoItem)
    (hnd : (db.map Prod.fst).Nodup) (hids : ∀ p ∈ db, p.2.id = p.1)
    (hv : v.id = k) :
    ((dictSet db k v).map Prod.fst).Nodup ∧ ∀ p ∈ dictSet db k v, p.2.id = p.1 := by
  constructor
  · by_cases hc : dictContains db k
    · rw [keys_dictSet_of_contains db k v hc]
      exact hnd
    · rw [keys_dictSet_of_not_contains db k v hc]
      have hk : k ∉ db.map Prod.fst :=
        (dictGet_eq_none_iff db k).mp (dictGet_eq_none_of_not_contains db k hc)
      simp [List.nodup_append, hnd, hk]
  · intro p hp
    rcases mem_dictSet db k v p hp with rfl | hmem
    · simpa using hv
    · exact hids p hmem

theorem dictErase_preserves_WF (db : TodoDb) (k : Nat)
    (hnd : (db.map Prod.fst).Nodup) (hids : ∀ p ∈ db, p.2.id = p.1) :
    ((dictErase db k).map Prod.fst).Nodup ∧ ∀ p ∈ dictErase db k, p.2.id = p.1 := by
  constructor
  · exact hnd.sublist (List.Sublist.map Prod.fst (List.filter_sublist db))
  · intro p hp
    exact hids p (List.mem_of_mem_filter hp)

/-! ### Facts about the three conditional field assignments of update -/

theorem applyUpdate_id (u : TodoUpdate) (t : TodoItem) :
    (applyUpdate u t).id = t.id := by
  obtain ⟨ut, ud, uc⟩ := u
  cases ut <;> cases ud <;> cases uc <;> simp [applyUpdate]

theorem applyUpdate_created_at (u : TodoUpdate) (t : TodoItem) :
    (applyUpdate u t).created_at = t.created_at := by
  obtain ⟨ut, ud, uc⟩ := u
  cases ut <;> cases ud <;> cases uc <;> simp [applyUpdate]

theorem applyUpdate_title (u : TodoUpdate) (t : TodoItem) :
    (applyUpdate u t).title = u.title.getD t.title := by
  obtain ⟨ut, ud, uc⟩ := u
  cases ut <;> cases ud <;> cases uc <;> simp [applyUpdate]

theorem applyUpdate_description (u : TodoUpdate) (t : TodoItem) :
    (applyUpdate u t).description =
      (match u.description with
       | some v => some v
       | none => t.description) := by
  obtain ⟨ut, ud, uc⟩ := u
  cases ut <;> cases ud <;> cases uc <;> simp [applyUpdate]

theorem applyUpdate_completed (u : TodoUpdate) (t : TodoItem) :
    (applyUpdate u t).completed = u.completed.getD t.completed := by
  obtain ⟨ut, ud, uc⟩ := u
  cases ut <;> cases ud <;> cases uc <;> simp [applyUpdate]

/-! ### The allocation counter across operations -/

theorem next_id_create (title : String) (description : Option String)
    (completed : Bool) (now : Nat) (s : StoreState) :
    (create_todo title description completed now s).2.next_id = s.next_id + 1 := rfl

theorem created_id (title : String) (description : Option String)
    (completed : Bool) (now : Nat) (s : StoreState) :
    (create_todo title description completed now s).1.id = s.next_id := rfl

theorem next_id_update (todo_id : Nat) (todo_update : TodoUpdate) (s : StoreState) :
    (update_todo todo_id todo_update s).2.next_id = s.next_id := by
  unfold update_todo
  cases hg : dictGet s.todos_db todo_id <;> rfl

theorem next_id_delete (todo_id : Nat) (s : StoreState) :
    (delete_todo todo_id s).2.next_id = s.next_id := by
  unfold delete_todo
  by_cases hc : dictContains s.todos_db todo_id
  · rw [if_pos hc]
  · rw [if_neg hc]

theorem next_id_delete_all (s : StoreState) :
    (delete_all_todos s).next_id = s.next_id := rfl

theorem assignedIds_eq_range' (ops : List Op) :
    ∀ s : StoreState, assignedIds ops s = List.range' s.next_id (numCreates ops) := by
  induction ops with
  | nil => intro s; rfl
  | cons op rest ih =>
      intro s
      cases op with
      | create title description completed now =>
          show (create_todo title description completed now s).1.id ::
              assignedIds rest (applyOp (Op.create title description completed now) s) =
            List.range' s.next_id (numCreates rest + 1)
          rw [List.range'_succ, created_id, ih]
          show _ :: List.range' (applyOp (Op.create title description completed now)
              s).next_id (numCreates rest) = _
          rw [show (applyOp (Op.create title description completed now) s).next_id =
            s.next_id + 1 from next_id_create title description completed now s]
      | update todo_id todo_update =>
          show assignedIds rest (applyOp (Op.update todo_id todo_update) s) =
            List.range' s.next_id (numCreates rest)
          rw [ih, show (applyOp (Op.update todo_id todo_update) s).next_id = s.next_id
            from next_id_update todo_id todo_update s]
      | delete todo_id =>
          show assignedIds rest (applyOp (Op.delete todo_id) s) =
            List.range' s.next_id (numCreates rest)
          rw [ih, show (applyOp (Op.delete todo_id) s).next_id = s.next_id
            from next_id_delete todo_id s]
      | deleteAll =>
          show assignedIds rest (applyOp Op.deleteAll s) =
            List.range' s.next_id (numCreates rest)
          rw [ih]
          rfl

theorem storeWF_applyOp (op : Op) (s : StoreState) (h : storeWF s) :
    storeWF (applyOp op s) := by
  obtain ⟨hnd, hids⟩ := h
  cases op with
  | create title description completed now =>
      exact dictSet_preserves_WF s.todos_db s.next_id
        { id := s.next_id, title := title, description := description,
          completed := completed, created_at := now } hnd hids rfl
  | update todo_id todo_update =>
      show storeWF (update_todo todo_id todo_update s).2
      unfold update_todo
      cases hg : dictGet s.todos_db todo_id with
      | none => exact ⟨hnd, hids⟩
      | some existing_todo =>
          have hid : existing_todo.id = todo_id :=
            hids (todo_id, existing_todo) (dictGet_mem _ _ _ hg)
          exact dictSet_preserves_WF s.todos_db todo_id
            (applyUpdate todo_update existing_todo) hnd hids
            (by rw [applyUpdate_id, hid])
  | delete todo_id =>
      show storeWF (delete_todo todo_id s).2
      unfold delete_todo
      by_cases hc : dictContains s.todos_db todo_id
      · rw [if_pos hc]
        exact dictErase_preserves_WF s.todos_db todo_id hnd hids
      · rw [if_neg hc]
        exact ⟨hnd, hids⟩
  | deleteAll =>
      constructor
      · show (((delete_all_todos s).todos_db).map Prod.fst).Nodup
        simp [delete_all_todos]
      · intro p hp
        simp [applyOp, delete_all_todos] at hp

theorem storeWF_runOps (ops : List Op) :
    ∀ s : StoreState, storeWF s → storeWF (runOps ops s) := by
  induction ops with
  | nil => intro s h; exact h
  | cons op rest ih =>
      intro s h
      exact ih (applyOp op s) (storeWF_applyOp op s h)

/-! ### Python slice arithmetic -/

theorem drop_min_length (l : List TodoItem) (k : Nat) :
    l.drop (min k l.length) = l.drop k := by
  by_cases h : k ≤ l.length
  · rw [min_eq_left h]
  · rw [min_eq_right (le_of_not_le h), List.drop_length,
      List.drop_eq_nil_of_le (le_of_lt (lt_of_not_le h))]

theorem pySlice_nonneg (l : List TodoItem) (skip limit : Int)
    (h1 : 0 ≤ skip) (h2 : 0 ≤ limit) :
    pySlice l skip (skip + limit) = (l.drop skip.toNat).take limit.toNat := by
  unfold pySlice pySliceIdx
  rw [if_neg (by omega), if_neg (by omega), List.drop_take, drop_min_length,
    List.take_eq_take]
  simp only [List.length_drop]
  omega

/-! ### The claims -/

/-- C1: starting from the fresh store, the ids handed out by the create
requests of any trace are exactly 1, 2, …, numCreates: strictly
increasing, pairwise distinct, starting at 1; and no operation ever
decreases the allocation counter, so an id is never reused even after
the item (or the whole store) has been deleted. -/
theorem create_ids_strictly_increasing_from_one (ops : List Op) :
    assignedIds ops initialState = List.range' 1 (numCreates ops) ∧
    (assignedIds ops initialState).Pairwise (· < ·) ∧
    (assignedIds ops initialState).Nodup ∧
    ∀ (s : StoreState) (op : Op), s.next_id ≤ (applyOp op s).next_id := by
  have h := assignedIds_eq_range' ops initialState
  refine ⟨h, ?_, ?_, ?_⟩
  · rw [h]
    exact List.pairwise_lt_range' 1 (numCreates ops)
  · rw [h]
    exact List.nodup_range' 1 (numCreates ops)
  · intro s op
    cases op with
    | create title description completed now =>
        rw [show (applyOp (Op.create title description completed now) s).next_id =
          s.next_id + 1 from next_id_create title description completed now s]
        exact Nat.le_succ s.next_id
    | update todo_id todo_update =>
        exact le_of_eq (next_id_update todo_id todo_update s).symm
    | delete todo_id =>
        exact le_of_eq (next_id_delete todo_id s).symm
    | deleteAll =>
        exact le_of_eq (next_id_delete_all s).symm

/-- C2: in every state reachable from the fresh store by
create/update/delete/deleteAll requests, the keys of the mapping are
pairwise distinct and every entry holds a TodoItem whose `id` field
equals its key. -/
theorem store_keys_match_item_ids (ops : List Op) :
    (((runOps ops initialState).todos_db).map Prod.fst).Nodup ∧
    ∀ p ∈ (runOps ops initialState).todos_db, p.2.id = p.1 :=
  storeWF_runOps ops initialState ⟨by simp [initialState], by simp [initialState]⟩

/-- C2 instantiated on a concrete trace of two creates around a delete. -/
theorem store_keys_match_item_ids_witness :
    (((runOps wOps initialState).todos_db).map Prod.fst).Nodup ∧
    (2, wItem2).2.id = (2, wItem2).1 :=
  ⟨(store_keys_match_item_ids wOps).1,
   (store_keys_match_item_ids wOps).2 (2, wItem2) (by decide)⟩

/-- C3: when the id is present, update returns and stores a record in
which each field provided in the request is overwritten, each omitted
field keeps its stored value, and `id` and `created_at` are unchanged. -/
theorem update_overwrites_only_provided_fields (s : StoreState) (todo_id : Nat)
    (u : TodoUpdate) (t : TodoItem) (h : dictGet s.todos_db todo_id = some t) :
    ∃ t2 : TodoItem,
      (update_todo todo_id u s).1 = Except.ok t2 ∧
      dictGet (update_todo todo_id u s).2.todos_db todo_id = some t2 ∧
      t2.title = u.title.getD t.title ∧
      t2.description = (match u.description with
        | some v => some v
        | none => t.description) ∧
      t2.completed = u.completed.getD t.completed ∧
      t2.id = t.id ∧
      t2.created_at = t.created_at := by
  refine ⟨applyUpdate u t, ?_, ?_, applyUpdate_title u t, applyUpdate_description u t,
    applyUpdate_completed u t, applyUpdate_id u t, applyUpdate_created_at u t⟩
  · unfold update_todo
    rw [h]
  · unfold update_todo
    rw [h]
    exact dictGet_dictSet_self s.todos_db todo_id (applyUpdate u t)

/-- C3 instantiated: updating item 2 of the sample store with only
`completed = false`. -/
theorem update_overwrites_only_provided_fields_witness :
    ∃ t2 : TodoItem,
      (update_todo 2 wUpd wState).1 = Except.ok t2 ∧
      dictGet (update_todo 2 wUpd wState).2.todos_db 2 = some t2 ∧
      t2.title = wUpd.title.getD wItem2.title ∧
      t2.description = (match wUpd.description with
        | some v => some v
        | none => wItem2.description) ∧
      t2.completed = wUpd.completed.getD wItem2.completed ∧
      t2.id = wItem2.id ∧
      t2.created_at = wItem2.created_at :=
  update_overwrites_only_provided_fields wState 2 wUpd wItem2 rfl

/-- C4: for non-negative skip and limit, listing filters the store's
items (kept in insertion order) by the completion flag before slicing
off `skip` items and keeping at most `limit`; a skip beyond the filtered
count yields the empty list, and the state is untouched. -/
theorem read_todos_filters_then_paginates (s : StoreState) (skip limit : Int)
    (cf : Option Bool) (h1 : 0 ≤ skip) (h2 : 0 ≤ limit) :
    (read_todos skip limit cf s).1 =
      ((filteredTodos cf s).drop skip.toNat).take limit.toNat ∧
    ((filteredTodos cf s).length ≤ skip.toNat →
      (read_todos skip limit cf s).1 = []) ∧
    (read_todos skip limit cf s).2 = s := by
  have hmain : (read_todos skip limit cf s).1 =
      ((filteredTodos cf s).drop skip.toNat).take limit.toNat := by
    cases cf with
    | none =>
        show pySlice (s.todos_db.map Prod.snd) skip (skip + limit) = _
        rw [pySlice_nonneg _ _ _ h1 h2]
        rfl
    | some c =>
        show pySlice ((s.todos_db.map Prod.snd).filter
            (fun todo => todo.completed == c)) skip (skip + limit) = _
        rw [pySlice_nonneg _ _ _ h1 h2]
        rfl
  refine ⟨hmain, ?_, rfl⟩
  intro hlen
  rw [hmain, List.drop_eq_nil_of_le hlen, List.take_nil]

/-- C4 instantiated: skip 1, limit 1, no filter, on the sample store. -/
theorem read_todos_filters_then_paginates_witness :
    (read_todos 1 1 none wState).1 =
      ((filteredTodos none wState).drop (1 : Int).toNat).take (1 : Int).toNat ∧
    ((filteredTodos none wState).length ≤ (1 : Int).toNat →
      (read_todos 1 1 none wState).1 = []) ∧
    (read_todos 1 1 none wState).2 = wState :=
  read_todos_filters_then_paginates wState 1 1 none (by decide) (by decide)

/-- C5: stats reports the store size, the number of completed items, the
difference as pending, and the completion percentage (0 on an empty
store), without touching the state. -/
theorem get_stats_counts (s : StoreState) :
    (get_stats s).1.total_todos = s.todos_db.length ∧
    (get_stats s).1.completed =
      ((s.todos_db.map Prod.snd).filter (fun todo => todo.completed)).length ∧
    (get_stats s).1.pending + (get_stats s).1.completed = (get_stats s).1.total_todos ∧
    (get_stats s).1.completion_percentage =
      (if s.todos_db.length = 0 then (0 : Rat) else
        ((get_stats s).1.completed : Rat) / ((get_stats s).1.total_todos : Rat) * 100) ∧
    (get_stats s).2 = s := by
  refine ⟨rfl, List.countP_eq_length_filter _ _, ?_, ?_, rfl⟩
  · have hle : List.countP (fun todo => todo.completed) (s.todos_db.map Prod.snd) ≤
        s.todos_db.length := by
      have h := List.countP_le_length (l := s.todos_db.map Prod.snd)
        (fun todo => todo.completed)
      simpa using h
    show s.todos_db.length -
        List.countP (fun todo => todo.completed) (s.todos_db.map Prod.snd) +
        List.countP (fun todo => todo.completed) (s.todos_db.map Prod.snd) =
      s.todos_db.length
    omega
  · show (if 0 < s.todos_db.length then
        ((List.countP (fun todo => todo.completed) (s.todos_db.map Prod.snd) : Rat)) /
          ((s.todos_db.length : Rat)) * 100 else 0) = _
    by_cases h0 : s.todos_db.length = 0
    · rw [if_neg (by omega), if_pos h0]
    · rw [if_pos (by omega), if_neg h0]
      rfl

/-- C6: read of a single id fails with the 404 message exactly when the
id is absent, returns the stored record when present, and never changes
the state. -/
theorem read_todo_not_found_iff_absent (s : StoreState) (todo_id : Nat) :
    ((read_todo todo_id s).1 = Except.error (notFoundMsg todo_id) ↔
      dictGet s.todos_db todo_id = none) ∧
    (∀ t, dictGet s.todos_db todo_id = some t →
      (read_todo todo_id s).1 = Except.ok t) ∧
    (read_todo todo_id s).2 = s := by
  refine ⟨?_, ?_, ?_⟩
  · unfold read_todo
    cases hg : dictGet s.todos_db todo_id with
    | none => simp
    | some t => simp
  · intro t ht
    unfold read_todo
    rw [ht]
  · unfold read_todo
    cases hg : dictGet s.todos_db todo_id <;> rfl

/-- C6 instantiated: a present id on the sample store. -/
theorem read_todo_not_found_iff_absent_witness :
    (read_todo 2 wState).1 = Except.ok wItem2 ∧ (read_todo 2 wState).2 = wState :=
  ⟨(read_todo_not_found_iff_absent wState 2).2.1 wItem2 rfl,
   (read_todo_not_found_iff_absent wState 2).2.2⟩

/-- C7: delete fails with the 404 message (and changes nothing) when the
id is absent; when present it removes exactly that entry, returns no
content, and a subsequent read of the id fails with NotFound. -/
theorem delete_todo_removes_entry (s : StoreState) (todo_id : Nat) :
    (dictGet s.todos_db todo_id = none →
      delete_todo todo_id s = (Except.error (notFoundMsg todo_id), s)) ∧
    (∀ t, dictGet s.todos_db todo_id = some t →
      (delete_todo todo_id s).1 = Except.ok () ∧
      (∀ k, dictGet (delete_todo todo_id s).2.todos_db k =
        if k = todo_id then none else dictGet s.todos_db k) ∧
      (read_todo todo_id (delete_todo todo_id s).2).1 =
        Except.error (notFoundMsg todo_id)) := by
  constructor
  · intro hg
    unfold delete_todo
    rw [if_neg (by simp [dictContains, hg])]
  · intro t ht
    have hc : dictContains s.todos_db todo_id := by
      simp [dictContains, ht]
    have hdb : (delete_todo todo_id s).2.todos_db = dictErase s.todos_db todo_id := by
      unfold delete_todo
      rw [if_pos hc]
    refine ⟨?_, ?_, ?_⟩
    · unfold delete_todo
      rw [if_pos hc]
    · intro k
      rw [hdb]
      by_cases hk : k = todo_id
      · subst hk
        rw [if_pos rfl]
        exact dictGet_dictErase_self _ _
      · rw [if_neg hk]
        exact dictGet_dictErase_ne _ _ _ hk
    · unfold read_todo
      rw [hdb, dictGet_dictErase_self]

/-- C7 instantiated: deleting item 1 of the sample store. -/
theorem delete_todo_removes_entry_witness :
    (delete_todo 1 wState).1 = Except.ok () ∧
    (read_todo 1 (delete_todo 1 wState).2).1 = Except.error (notFoundMsg 1) :=
  ⟨((delete_todo_removes_entry wState 1).2 wItem1 rfl).1,
   ((delete_todo_removes_entry wState 1).2 wItem1 rfl).2.2⟩

/-- C8: deleteAll empties the mapping (so a default list call returns
nothing) while keeping the counter, and the next create is assigned the
counter the store held before the call. -/
theorem delete_all_keeps_counter (s : StoreState) (title : String)
    (description : Option String) (completed : Bool) (now : Nat) :
    (delete_all_todos s).todos_db = [] ∧
    (read_todos 0 10 none (delete_all_todos s)).1 = [] ∧
    (delete_all_todos s).next_id = s.next_id ∧
    (create_todo title description completed now (delete_all_todos s)).1.id =
      s.next_id :=
  ⟨rfl, rfl, rfl, rfl⟩

/-- C9: a call that fails with NotFound (read, update or delete of an
absent id) leaves the whole state exactly as it was. -/
theorem not_found_leaves_state_unchanged (s : StoreState) (todo_id : Nat)
    (u : TodoUpdate) :
    (∀ e, (read_todo todo_id s).1 = Except.error e → (read_todo todo_id s).2 = s) ∧
    (∀ e, (update_todo todo_id u s).1 = Except.error e →
      (update_todo todo_id u s).2 = s) ∧
    (∀ e, (delete_todo todo_id s).1 = Except.error e →
      (delete_todo todo_id s).2 = s) := by
  refine ⟨?_, ?_, ?_⟩
  · intro e _
    unfold read_todo
    cases hg : dictGet s.todos_db todo_id <;> rfl
  · intro e herr
    unfold update_todo at herr ⊢
    cases hg : dictGet s.todos_db todo_id with
    | none => rfl
    | some t =>
        rw [hg] at herr
        simp at herr
  · intro e herr
    unfold delete_todo at herr ⊢
    by_cases hc : dictContains s.todos_db todo_id
    · rw [if_pos hc] at herr
      simp at herr
    · rw [if_neg hc]

/-- C9 instantiated: an update of the absent id 9 keeps the sample store. -/
theorem not_found_leaves_state_unchanged_witness :
    (update_todo 9 wUpd wState).2 = wState :=
  (not_found_leaves_state_unchanged wState 9 wUpd).2.1 (notFoundMsg 9) rfl

/-- C10: if the record stored under an id has no description after an
update of that id, then the record already had no description before:
an update request can never null the description, because a null field
is treated as omitted. -/
theorem update_never_nulls_description (s : StoreState) (todo_id : Nat)
    (u : TodoUpdate) (t2 : TodoItem)
    (h : dictGet (update_todo todo_id u s).2.todos_db todo_id = some t2)
    (hnone : t2.description = none) :
    ∃ t, dictGet s.todos_db todo_id = some t ∧ t.description = none := by
  cases hg : dictGet s.todos_db todo_id with
  | none =>
      have hstate : (update_todo todo_id u s).2 = s := by
        unfold update_todo
        rw [hg]
      rw [hstate, hg] at h
      exact absurd h (by simp)
  | some t =>
      have hdb : (update_todo todo_id u s).2.todos_db =
          dictSet s.todos_db todo_id (applyUpdate u t) := by
        unfold update_todo
        rw [hg]
      rw [hdb, dictGet_dictSet_self] at h
      have ht2 : t2 = applyUpdate u t := by
        injection h with h2
        exact h2.symm
      refine ⟨t, rfl, ?_⟩
      rw [ht2, applyUpdate_description] at hnone
      cases hd : u.description with
      | none =>
          rw [hd] at hnone
          exact hnone
      | some v =>
          rw [hd] at hnone
          simp at hnone

/-- C10 instantiated: updating item 1 (which has no description) with a
title and a completion flag leaves its description null, and indeed it
was null before. -/
theorem update_never_nulls_description_witness :
    ∃ t, dictGet wState.todos_db 1 = some t ∧ t.description = none :=
  update_never_nulls_description wState 1 wUpd2
    ⟨1, "buy oat milk", none, true, 0⟩ rfl rfl
